import Mathlib

/-!
Verification of `tools/mechjeb_smoke.py`, the smoke-test probe for the
KRPC.MechJeb remote service.

The Python module is shallowly embedded below.  The remote kRPC surface
(an external collaborator: the connection object, remote objects, their
attributes and methods) is abstracted as a `World`: a bundle of functions
from object handles and member names to `Except`-style outcomes, where
`.error msg` models a Python exception whose `str` is `msg` and `.ok v`
models a normal return of the Python value `v`.  Python values are
modelled by `PyVal`; the Python value `None` is `PyVal.none`, which also
serves as `safe_read`'s failure sentinel, exactly as in the source.

The ledger (`results` list) is passed functionally: each embedded
function takes the ledger and returns the extended ledger, mirroring the
in-place `results.append` calls of the source.  Printing is modelled as a
returned `List String` of output lines.  Python's `x is None` and
`x is False` identity tests are modelled as equality with `PyVal.none`
and `PyVal.bool false`, which coincides with identity on these
singleton/interned values.
-/

/-- One outcome of one probe attempt (the `CheckResult` dataclass).
Statuses are strings, as in the source: `"PASS"`, `"FAIL"`,
`"FAIL_CRASH"`, `"EXPECTED_FAIL"`, `"SKIP"`. -/
structure CheckResult where
  name : String
  status : String
  detail : String := ""
deriving DecidableEq, Repr

/-- Does the character list `needle` occur contiguously inside `hay`?
Models Python's `needle in hay` substring test on strings. -/
def charsContain (needle : List Char) : List Char → Bool
  | [] => needle.isEmpty
  | c :: rest => needle.isPrefixOf (c :: rest) || charsContain needle rest

/-- Python `sub in s` for strings: substring containment. -/
def pyIn (sub s : String) : Bool := charsContain sub.data s.data

/-- Python `s.lower()` (ASCII case folding, as used on the ASCII marker
vocabulary and failure messages). -/
def pyLower (s : String) : String := ⟨s.data.map Char.toLower⟩

/-- Python `s.startswith(pre)`. -/
def pyStartsWith (s pre : String) : Bool := pre.data.isPrefixOf s.data

/-- The `CRASH_MARKERS` tuple: case-sensitive substrings whose presence in
a failure message marks a structural client/server contract break. -/
def CRASH_MARKERS : List String :=
  [ "NullReferenceException"
  , "TargetInvocationException"
  , "MissingFieldException"
  , "MissingMethodException"
  , "TypeLoadException" ]

/-- The `EXPECTED_OPERATION_MARKERS` tuple: case-insensitive substrings
marking a legitimate domain-precondition refusal. -/
def EXPECTED_OPERATION_MARKERS : List String :=
  [ "target"
  , "inclination"
  , "intercept"
  , "cannot"
  , "not allowed"
  , "no transfer"
  , "no maneuver"
  , "no maneuver parameters" ]

/-- The crash test `any(marker in msg for marker in CRASH_MARKERS)` used
both in `safe_read` and at the `make_nodes` call site. -/
def containsCrashMarker (msg : String) : Bool :=
  CRASH_MARKERS.any fun marker => pyIn marker msg

/-- Embeds `is_expected_operation_error`: lower-case the message, then test the
expected-operation vocabulary. -/
def is_expected_operation_error (message : String) : Bool :=
  EXPECTED_OPERATION_MARKERS.any fun marker => pyIn marker (pyLower message)

/-- A Python value as seen by the probe.  `none` is Python `None` (also
`safe_read`'s failure sentinel); `obj i` is an opaque remote object
handle; `float` carries the literal's textual representation. -/
inductive PyVal where
  | none
  | bool (b : Bool)
  | int (n : Int)
  | float (lit : String)
  | str (s : String)
  | obj (id : Nat)
deriving DecidableEq, Repr

/-- Python `repr` on the values above (`repr(None) = "None"`, booleans
capitalised, strings quoted, remote objects shown as a handle). -/
def pyRepr : PyVal → String
  | .none => "None"
  | .bool true => "True"
  | .bool false => "False"
  | .int n => toString n
  | .float lit => lit
  | .str s => "'" ++ s ++ "'"
  | .obj i => "<remote object " ++ toString i ++ ">"

/-- The remote kRPC surface reached through the connection, abstracted as
outcome functions.  `.error msg` models a raised exception with message
`msg`.  `clearNodesRun k` is the outcome of the `k`-th execution (within
this run) of `clear_nodes`'s unguarded remote work (fetch the active
vessel and remove each maneuver node), returning the number removed. -/
structure World where
  /-- Models `conn.krpc.get_status().version` -/
  krpcVersion : Except String PyVal
  /-- Models `conn.mech_jeb` -/
  mechJeb : Except String PyVal
  /-- Models `dir(obj)` -/
  dirOf : PyVal → Except String (List String)
  /-- Models `getattr(obj, name)` (also plain attribute reads `obj.name`) -/
  getattrOf : PyVal → String → Except String PyVal
  /-- Models `getattr(obj, method)(*args)` -/
  callMethod : PyVal → String → List PyVal → Except String PyVal
  /-- Models `op.make_nodes()`, returning the list of generated nodes -/
  makeNodesOf : PyVal → Except String (List PyVal)
  /-- the `k`-th `clear_nodes` body: remove all nodes, count removed -/
  clearNodesRun : Nat → Except String Nat

/-- Embeds `safe_read`: run the zero-argument operation; on success append a
`PASS` result carrying `repr(value)` and return the value; on exception
classify the message with the two-tier {crash, other} decision, append
the result, and return the `None` sentinel.  Never raises. -/
def safe_read (results : List CheckResult) (name : String)
    (fn : Except String PyVal) : List CheckResult × PyVal :=
  match fn with
  | .ok value => (results ++ [⟨name, "PASS", pyRepr value⟩], value)
  | .error ex =>
      let msg := ex
      let status := if containsCrashMarker msg then "FAIL_CRASH" else "FAIL"
      (results ++ [⟨name, status, msg⟩], PyVal.none)

/-- Embeds `safe_attr`: resolve the first of `attr :: aliases` present in
`set(dir(obj))` and delegate to `safe_read` under the matched name; if
none is exposed append a `SKIP`; if `dir(obj)` itself raises append a
`FAIL` with a "cannot inspect attributes" detail. -/
def safe_attr (w : World) (results : List CheckResult) (owner_name : String)
    (obj : PyVal) (attr : String) (aliases : List String := []) :
    List CheckResult × PyVal :=
  let names := attr :: aliases
  match w.dirOf obj with
  | .error ex =>
      (results ++ [⟨owner_name ++ "." ++ attr, "FAIL",
        "cannot inspect attributes: " ++ ex⟩], PyVal.none)
  | .ok exposed =>
      match names.find? (fun n => exposed.contains n) with
      | some name => safe_read results (owner_name ++ "." ++ name) (w.getattrOf obj name)
      | Option.none =>
          (results ++ [⟨owner_name ++ "." ++ attr, "SKIP",
            "attribute not exposed by this client/service build"⟩], PyVal.none)

/-- Embeds `probe_basic_service`: version probe, `mech_jeb` fetch, and — when
the service object is present — the `api_ready` probe, with an extra
`FAIL` appended when `api_ready` reads back `False`.  Returns the
service object (or the `None` sentinel). -/
def probe_basic_service (w : World) (results : List CheckResult) :
    List CheckResult × PyVal :=
  let p1 := safe_read results "krpc.version" w.krpcVersion
  let p2 := safe_read p1.1 "service.mech_jeb" w.mechJeb
  let mj := p2.2
  if mj = PyVal.none then (p2.1, PyVal.none)
  else
    let p3 := safe_read p2.1 "mech_jeb.api_ready" (w.getattrOf mj "api_ready")
    let results :=
      if p3.2 = PyVal.bool false then
        p3.1 ++ [⟨"mech_jeb.api_ready", "FAIL", "API is not ready"⟩]
      else p3.1
    (results, mj)

/-- The `modules` catalog of `probe_modules` (dict insertion order). -/
def modulesCatalog : List (String × List String) :=
  [ ("airplane_autopilot", ["enabled"])
  , ("ascent_autopilot", ["enabled", "ascent_path_index", "autostage"])
  , ("docking_autopilot", ["enabled", "speed_limit"])
  , ("landing_autopilot", ["enabled", "touchdown_speed"])
  , ("rendezvous_autopilot", ["enabled", "desired_distance", "max_phasing_orbits"])
  , ("maneuver_planner", [])
  , ("smart_ass", ["autopilot_mode", "force_roll", "force_pitch", "force_yaw"])
  , ("smart_rcs", ["auto_disable_smart_rcs"])
  , ("translatron", ["trans_spd"])
  , ("antenna_controller", ["auto_deploy"])
  , ("node_executor", ["enabled", "autowarp", "lead_time", "tolerance"])
  , ("rcs_controller", ["rcs_for_rotation", "rcs_throttle"])
  , ("staging_controller", ["enabled", "autostage_limit"])
  , ("solar_panel_controller", ["auto_deploy"])
  , ("target_controller", ["normal_target_exists", "position_target_exists", "can_align"])
  , ("thrust_controller", ["limit_dynamic_pressure", "limit_acceleration", "limit_throttle"])
  , ("warp_controller", ["enabled", "warp_paused", "activate_sas_on_warp", "use_quick_warp"]) ]

/-- Body of the `probe_modules` loop for one catalog entry: fetch the
module object by name; if it came back as the sentinel, `continue`
(zero member probes); otherwise probe each listed property. -/
def probe_module_entry (w : World) (mj : PyVal) (results : List CheckResult)
    (entry : String × List String) : List CheckResult :=
  let module_name := entry.1
  let props := entry.2
  let p := safe_read results ("module." ++ module_name) (w.getattrOf mj module_name)
  let module := p.2
  if module = PyVal.none then p.1
  else props.foldl (fun results prop => (safe_attr w results module_name module prop).1) p.1

/-- Embeds `probe_modules`: walk the module/property catalog. -/
def probe_modules (w : World) (mj : PyVal) (results : List CheckResult) :
    List CheckResult :=
  modulesCatalog.foldl (probe_module_entry w mj) results

/-- The `checks` triples of `probe_ascent_compat`. -/
def ascentChecks : List (String × String × List PyVal) :=
  [ ("desired_orbit_altitude", "try_set_desired_orbit_altitude", [.float "100.0"])
  , ("limit_ao_a", "try_set_limit_ao_a", [.bool true])
  , ("limit_ao_a", "try_get_limit_ao_a", [])
  , ("max_ao_a", "try_set_max_ao_a", [.float "5.0"])
  , ("max_ao_a", "try_get_max_ao_a", [])
  , ("corrective_steering", "try_set_corrective_steering", [.bool true])
  , ("corrective_steering", "try_get_corrective_steering", [])
  , ("corrective_steering_gain", "try_set_corrective_steering_gain", [.float "0.6"])
  , ("corrective_steering_gain", "try_get_corrective_steering_gain", [])
  , ("force_roll", "try_set_force_roll", [.bool false])
  , ("skip_circularization", "try_set_skip_circularization", [.bool false])
  , ("skip_circularization", "try_get_skip_circularization", []) ]

/-- Embeds `probe_ascent_compat`: availability, unavailability-reason and
try-setter/getter probes against the ascent autopilot. -/
def probe_ascent_compat (w : World) (mj : PyVal) (results : List CheckResult) :
    List CheckResult :=
  let p := safe_read results "module.ascent_autopilot"
    (w.getattrOf mj "ascent_autopilot")
  let ascent := p.2
  if ascent = PyVal.none then p.1
  else
      ascentChecks.foldl (fun results c =>
        let prop_name := c.1
        let method_name := c.2.1
        let args := c.2.2
        let q1 := safe_read results
          ("ascent.is_property_available(" ++ prop_name ++ ")")
          (w.callMethod ascent "is_property_available" [.str prop_name])
        let q2 := safe_read q1.1
          ("ascent.get_unavailable_reason(" ++ prop_name ++ ")")
          (w.callMethod ascent "get_unavailable_reason" [.str prop_name])
        (safe_read q2.1 ("ascent." ++ method_name)
          (w.callMethod ascent method_name args)).1) p.1

/-- The `operations` list of `probe_operations`. -/
def operationsCatalog : List String :=
  [ "operation_apoapsis"
  , "operation_circularize"
  , "operation_course_correction"
  , "operation_ellipticize"
  , "operation_inclination"
  , "operation_interplanetary_transfer"
  , "operation_kill_rel_vel"
  , "operation_lambert"
  , "operation_lan"
  , "operation_longitude"
  , "operation_moon_return"
  , "operation_periapsis"
  , "operation_plane"
  , "operation_resonant_orbit"
  , "operation_semi_major"
  , "operation_transfer" ]

/-- The `except` branch at the node-generation call site: the full
three-tier classification (crash / expected-operation / generic) of the
caught message, producing the `op.<name>.make_nodes` result. -/
def classify_make_nodes_failure (op_name msg : String) : CheckResult :=
  if containsCrashMarker msg then
    ⟨"op." ++ op_name ++ ".make_nodes", "FAIL_CRASH", msg⟩
  else if is_expected_operation_error msg then
    ⟨"op." ++ op_name ++ ".make_nodes", "EXPECTED_FAIL", msg⟩
  else
    ⟨"op." ++ op_name ++ ".make_nodes", "FAIL", msg⟩

/-- Body of the `probe_operations` loop for one operation name.  The
accumulator carries the ledger together with the count of `clear_nodes`
executions so far (the index fed to `World.clearNodesRun`; the source
keeps this state in the game world itself).  Both the node-generation
call and the cleanup run inside the same `try`, so a cleanup exception
is caught by the same `except` and classified under
`op.<name>.make_nodes` — nothing escapes this body. -/
def probe_op_entry (w : World) (planner : PyVal) (make_nodes : Bool)
    (acc : List CheckResult × Nat) (op_name : String) :
    List CheckResult × Nat :=
  let k := acc.2
  let p := safe_read acc.1 ("op." ++ op_name) (w.getattrOf planner op_name)
  let op := p.2
  if op = PyVal.none then (p.1, k)
  else
      let p2 := safe_read p.1 ("op." ++ op_name ++ ".error_message")
        (w.getattrOf op "error_message")
      let p3 := safe_attr w p2.1 ("op." ++ op_name) op "time_selector"
      let ts := p3.2
      let results :=
        if ts = PyVal.none then p3.1
        else
            let r := (safe_attr w p3.1 ("op." ++ op_name ++ ".time_selector")
              ts "time_reference" ["current_time_reference"]).1
            (safe_attr w r ("op." ++ op_name ++ ".time_selector")
              ts "allowed_time_references").1
      if !make_nodes then (results, k)
      else
        match w.makeNodesOf op with
        | .error ex => (results ++ [classify_make_nodes_failure op_name ex], k)
        | .ok nodes =>
            let count := nodes.length
            let results2 := results ++
              [⟨"op." ++ op_name ++ ".make_nodes", "PASS", "nodes=" ++ toString count⟩]
            match w.clearNodesRun k with
            | .ok removed =>
                (results2 ++ [⟨"space_center.clear_nodes", "PASS",
                  "removed=" ++ toString removed⟩], k + 1)
            | .error ex => (results2 ++ [classify_make_nodes_failure op_name ex], k + 1)

/-- Embeds `probe_operations`: fetch the maneuver planner, then walk the
operation catalog with `probe_op_entry`. -/
def probe_operations (w : World) (mj : PyVal) (results : List CheckResult)
    (make_nodes : Bool) : List CheckResult :=
  let p := safe_read results "maneuver_planner" (w.getattrOf mj "maneuver_planner")
  let planner := p.2
  if planner = PyVal.none then p.1
  else (operationsCatalog.foldl (probe_op_entry w planner make_nodes) (p.1, 0)).1

/-- Embeds `summarize`: the printed lines (one `[STATUS] name: detail` line per
result, a blank line, the aggregate summary line) and the exit code —
`1` when any result's status starts with `"FAIL"`, else `0`. -/
def summarize (results : List CheckResult) : List String × Nat :=
  let fail := results.filter fun r => pyStartsWith r.status "FAIL"
  let expected := results.filter fun r => r.status = "EXPECTED_FAIL"
  let skipped := results.filter fun r => r.status = "SKIP"
  let lines := results.map fun r => "[" ++ r.status ++ "] " ++ r.name ++ ": " ++ r.detail
  (lines ++ ["",
    "Summary: total=" ++ toString results.length ++ " fail=" ++ toString fail.length
      ++ " expected_fail=" ++ toString expected.length
      ++ " skipped=" ++ toString skipped.length],
   if fail.isEmpty then 0 else 1)

/-- Outcome of `main`'s guarded probing block: either it ran to
completion with the final ledger, or an unhandled exception escaped the
probe boundaries, with the ledger as collected up to that point (the
`results` list is still in scope in the handler, but unused there). -/
inductive BodyOutcome where
  | ok (results : List CheckResult)
  | exn (partialResults : List CheckResult) (msg : String)

/-- The tail of `main` after the probing `try` block: on completion,
report via `summarize`; on an unhandled exception, print only the
failure notice (the traceback goes to stderr) and return exit code 3 —
`summarize` is not reached on that path. -/
def main_dispatch : BodyOutcome → List String × Nat
  | .ok results => summarize results
  | .exn _ _ => (["[FAIL] unhandled exception during smoke test"], 3)

/-- The probing block of `main`: basic-service probe, then — when the
service object is present — module, ascent-compat and operation walks.
Every remote call inside is guarded, so the embedded block is total. -/
def run_probes (w : World) (make_nodes : Bool) : List CheckResult :=
  let p := probe_basic_service w []
  let mj := p.2
  if mj = PyVal.none then p.1
  else
    let results := probe_modules w mj p.1
    let results2 := probe_ascent_compat w mj results
    probe_operations w mj results2 make_nodes

/-- Embeds `main`: connect (exit 2 with a connect failure line if that raises),
run the probing block, and dispatch on its outcome. -/
def pyMain (connect : Except String World) (make_nodes : Bool) :
    List String × Nat :=
  match connect with
  | .error ex => (["[FAIL] connect: " ++ ex], 2)
  | .ok w => main_dispatch (BodyOutcome.ok (run_probes w make_nodes))

/-- The closed enumeration of statuses a `CheckResult` can carry. -/
def validStatuses : List String :=
  ["PASS", "FAIL", "FAIL_CRASH", "EXPECTED_FAIL", "SKIP"]

/-! Concrete worlds and ledgers used to evaluate the development on
explicit inputs. -/

/-- A baseline world: everything present and healthy. -/
def wBase : World where
  krpcVersion := .ok (.str "0.5.4")
  mechJeb := .ok (.obj 0)
  dirOf := fun _ => .ok []
  getattrOf := fun _ _ => .ok (.obj 9)
  callMethod := fun _ _ _ => .ok PyVal.none
  makeNodesOf := fun _ => .ok []
  clearNodesRun := fun _ => .ok 0

/-- A world whose `api_ready` property reads back `False`. -/
def wApiNotReady : World :=
  { wBase with
    getattrOf := fun _ n =>
      if n = "api_ready" then .ok (.bool false) else .ok (.obj 9) }

/-- A world whose `make_nodes` raises a message carrying both a crash
marker and an expected-operation marker. -/
def wCrash : World :=
  { wBase with
    getattrOf := fun _ _ => .ok (.obj 1)
    makeNodesOf := fun _ => .error "TargetInvocationException: no target" }

/-- A world whose `make_nodes` raises a pure precondition message. -/
def wExpected : World :=
  { wBase with
    getattrOf := fun _ _ => .ok (.obj 1)
    makeNodesOf := fun _ => .error "No transfer window currently available" }

/-- A world whose `make_nodes` succeeds with two nodes, and whose
cleanup removes both. -/
def wNodes : World :=
  { wBase with
    getattrOf := fun _ _ => .ok (.obj 1)
    makeNodesOf := fun _ => .ok [.obj 5, .obj 6]
    clearNodesRun := fun _ => .ok 2 }

/-- A world exposing only the alias `current_time_reference` (and a
second member), with readable attributes. -/
def wAlias : World :=
  { wBase with
    dirOf := fun _ => .ok ["current_time_reference", "allowed_time_references"]
    getattrOf := fun _ _ => .ok (.str "orbit") }

/-- A world in which member-set introspection itself raises. -/
def wBrokenDir : World :=
  { wBase with dirOf := fun _ => .error "ConnectionError" }

/-- A world in which every attribute read raises. -/
def wRaising : World :=
  { wBase with getattrOf := fun _ _ => .error "boom" }

/-- A world in which every attribute read succeeds with value `None`. -/
def wNoneVal : World :=
  { wBase with getattrOf := fun _ _ => .ok PyVal.none }

/-- A small, fully explicit final ledger with no FAIL entries. -/
def c2demo : List CheckResult :=
  [ ⟨"krpc.version", "PASS", "'0.5.4'"⟩
  , ⟨"op.operation_transfer.make_nodes", "EXPECTED_FAIL",
      "No transfer window currently available"⟩
  , ⟨"smart_ass.autopilot_mode", "SKIP",
      "attribute not exposed by this client/service build"⟩ ]

/-- A partial ledger collected before a hypothetical walker fault. -/
def c5ledger : List CheckResult := [⟨"krpc.version", "PASS", "'0.5.4'"⟩]

/-! ### Basic facts about the Safe Invoker and the Capability Prober -/

theorem safe_read_ok (results : List CheckResult) (name : String) (v : PyVal) :
    safe_read results name (.ok v) = (results ++ [⟨name, "PASS", pyRepr v⟩], v) := rfl

theorem safe_read_error (results : List CheckResult) (name msg : String) :
    safe_read results name (.error msg) =
      (results ++ [⟨name, if containsCrashMarker msg then "FAIL_CRASH" else "FAIL", msg⟩],
       PyVal.none) := rfl

/-- Every `safe_read` call appends exactly one result, under the given
probe name, at the end of the ledger. -/
theorem safe_read_fst_shape (results : List CheckResult) (name : String)
    (fn : Except String PyVal) :
    ∃ st det, (safe_read results name fn).1 = results ++ [⟨name, st, det⟩] := by
  cases fn with
  | ok v => exact ⟨"PASS", pyRepr v, rfl⟩
  | error ex => exact ⟨_, ex, rfl⟩

/-- Every `safe_attr` call appends exactly one result, named
`owner ++ "." ++ suffix` for some suffix among the candidate names. -/
theorem safe_attr_fst_shape (w : World) (results : List CheckResult)
    (owner : String) (obj : PyVal) (attr : String) (aliases : List String) :
    ∃ suffix st det, (safe_attr w results owner obj attr aliases).1
      = results ++ [⟨owner ++ "." ++ suffix, st, det⟩] := by
  rcases hdir : w.dirOf obj with ex | exposed
  · exact ⟨attr, "FAIL", "cannot inspect attributes: " ++ ex,
      by simp only [safe_attr, hdir]⟩
  · rcases hf : (attr :: aliases).find? (fun n => exposed.contains n) with _ | n
    · exact ⟨attr, "SKIP", "attribute not exposed by this client/service build",
        by simp only [safe_attr, hdir, hf]⟩
    · obtain ⟨st, det, h⟩ :=
        safe_read_fst_shape results (owner ++ "." ++ n) (w.getattrOf obj n)
      exact ⟨n, st, det, by simp only [safe_attr, hdir, hf]; exact h⟩

theorem safe_attr_extends (w : World) (results : List CheckResult)
    (owner : String) (obj : PyVal) (attr : String) (aliases : List String) :
    ∃ d, (safe_attr w results owner obj attr aliases).1 = results ++ d := by
  obtain ⟨suffix, st, det, h⟩ := safe_attr_fst_shape w results owner obj attr aliases
  exact ⟨_, h⟩

/-- Ledger-extension is preserved by folds whose step extends. -/
theorem foldl_extends {β : Type} (f : List CheckResult → β → List CheckResult)
    (hf : ∀ rs b, ∃ d, f rs b = rs ++ d) :
    ∀ (l : List β) (rs : List CheckResult), ∃ d, l.foldl f rs = rs ++ d := by
  intro l
  induction l with
  | nil => exact fun rs => ⟨[], (List.append_nil rs).symm⟩
  | cons b t ih =>
      intro rs
      obtain ⟨d1, h1⟩ := hf rs b
      obtain ⟨d2, h2⟩ := ih (f rs b)
      exact ⟨d1 ++ d2, by rw [List.foldl_cons, h2, h1, List.append_assoc]⟩

/-- The paired variant used by the operation walk (ledger together with
the cleanup counter). -/
theorem foldl_pair_extends {β : Type}
    (f : List CheckResult × Nat → β → List CheckResult × Nat)
    (hf : ∀ acc b, ∃ d, (f acc b).1 = acc.1 ++ d) :
    ∀ (l : List β) (acc : List CheckResult × Nat),
      ∃ d, (l.foldl f acc).1 = acc.1 ++ d := by
  intro l
  induction l with
  | nil => exact fun acc => ⟨[], (List.append_nil _).symm⟩
  | cons b t ih =>
      intro acc
      obtain ⟨d1, h1⟩ := hf acc b
      obtain ⟨d2, h2⟩ := ih (f acc b)
      exact ⟨d1 ++ d2, by rw [List.foldl_cons, h2, h1, List.append_assoc]⟩

/-! ### String-prefix facts used to locate results by name -/

theorem data_append (a b : String) : (a ++ b).data = a.data ++ b.data := rfl

theorem isPrefixOf_append_right (l1 l2 l3 : List Char)
    (h : l1.isPrefixOf l2 = true) : l1.isPrefixOf (l2 ++ l3) = true := by
  induction l1 generalizing l2 with
  | nil => simp [List.isPrefixOf]
  | cons c cs ih =>
      cases l2 with
      | nil => simp [List.isPrefixOf] at h
      | cons d ds =>
          simp only [List.isPrefixOf, List.cons_append, Bool.and_eq_true] at h ⊢
          exact ⟨h.1, ih ds h.2⟩

theorem pyStartsWith_append (s t p : String) (h : pyStartsWith s p = true) :
    pyStartsWith (s ++ t) p = true := by
  unfold pyStartsWith at h ⊢
  rw [data_append]
  exact isPrefixOf_append_right _ _ _ h

theorem startsWith_op (z : String) : pyStartsWith ("op." ++ z) "op." = true :=
  pyStartsWith_append "op." z "op." rfl

/-- A result whose name starts with `"op."` is not the cleanup record. -/
theorem name_op_ne_clear (r : CheckResult) (h : pyStartsWith r.name "op." = true) :
    r.name ≠ "space_center.clear_nodes" := by
  intro he
  rw [he] at h
  exact absurd h (by decide)

/-! ### The operation-walk loop body, characterized -/

/-- Unfolding of `probe_op_entry` when the operation object was fetched
successfully and is not `None`: the ledger grows by a block `mid` of
results (operation fetch, `error_message` probe, time-selector probes),
all named under `"op."`, followed — when node generation is enabled —
by the `make_nodes` outcome and, on success, the cleanup record. -/
theorem probe_op_entry_ok_eq (w : World) (planner opv : PyVal)
    (acc : List CheckResult × Nat) (op_name : String) (mk : Bool)
    (hget : w.getattrOf planner op_name = Except.ok opv) (hne : opv ≠ PyVal.none) :
    ∃ mid, (∀ r ∈ mid, pyStartsWith r.name "op." = true) ∧
      probe_op_entry w planner mk acc op_name =
        (if !mk then (acc.1 ++ mid, acc.2)
         else
           match w.makeNodesOf opv with
           | .error ex => (acc.1 ++ mid ++ [classify_make_nodes_failure op_name ex], acc.2)
           | .ok nodes =>
               match w.clearNodesRun acc.2 with
               | .ok removed =>
                   (acc.1 ++ mid ++
                     [⟨"op." ++ op_name ++ ".make_nodes", "PASS",
                        "nodes=" ++ toString nodes.length⟩,
                      ⟨"space_center.clear_nodes", "PASS",
                        "removed=" ++ toString removed⟩], acc.2 + 1)
               | .error ex =>
                   (acc.1 ++ mid ++
                     [⟨"op." ++ op_name ++ ".make_nodes", "PASS",
                        "nodes=" ++ toString nodes.length⟩,
                      classify_make_nodes_failure op_name ex], acc.2 + 1)) := by
  obtain ⟨st2, det2, h2⟩ := safe_read_fst_shape
    (acc.1 ++ [⟨"op." ++ op_name, "PASS", pyRepr opv⟩])
    ("op." ++ op_name ++ ".error_message") (w.getattrOf opv "error_message")
  obtain ⟨sfx3, st3, det3, h3⟩ := safe_attr_fst_shape w
    ((acc.1 ++ [⟨"op." ++ op_name, "PASS", pyRepr opv⟩])
      ++ [⟨"op." ++ op_name ++ ".error_message", st2, det2⟩])
    ("op." ++ op_name) opv "time_selector" []
  by_cases hts : (safe_attr w
      ((acc.1 ++ [⟨"op." ++ op_name, "PASS", pyRepr opv⟩])
        ++ [⟨"op." ++ op_name ++ ".error_message", st2, det2⟩])
      ("op." ++ op_name) opv "time_selector" []).2 = PyVal.none
  · refine ⟨[⟨"op." ++ op_name, "PASS", pyRepr opv⟩,
      ⟨"op." ++ op_name ++ ".error_message", st2, det2⟩,
      ⟨"op." ++ op_name ++ "." ++ sfx3, st3, det3⟩], ?_, ?_⟩
    · intro r hr
      simp only [List.mem_cons, List.mem_nil_iff, or_false] at hr
      rcases hr with rfl | rfl | rfl
      · exact startsWith_op op_name
      · exact pyStartsWith_append _ _ _ (startsWith_op op_name)
      · exact pyStartsWith_append _ _ _ (pyStartsWith_append _ _ _ (startsWith_op op_name))
    · simp only [probe_op_entry, hget, safe_read_ok, if_neg hne, h2, if_pos hts, h3]
      cases mk with
      | false => simp [List.append_assoc]
      | true =>
          cases w.makeNodesOf opv with
          | error ex => simp [List.append_assoc]
          | ok nodes =>
              cases w.clearNodesRun acc.2 with
              | ok removed => simp [List.append_assoc]
              | error ex => simp [List.append_assoc]
  · obtain ⟨sfx4, st4, det4, h4⟩ := safe_attr_fst_shape w
      (((acc.1 ++ [⟨"op." ++ op_name, "PASS", pyRepr opv⟩])
         ++ [⟨"op." ++ op_name ++ ".error_message", st2, det2⟩])
        ++ [⟨"op." ++ op_name ++ "." ++ sfx3, st3, det3⟩])
      ("op." ++ op_name ++ ".time_selector")
      (safe_attr w
        ((acc.1 ++ [⟨"op." ++ op_name, "PASS", pyRepr opv⟩])
          ++ [⟨"op." ++ op_name ++ ".error_message", st2, det2⟩])
        ("op." ++ op_name) opv "time_selector" []).2
      "time_reference" ["current_time_reference"]
    obtain ⟨sfx5, st5, det5, h5⟩ := safe_attr_fst_shape w
      ((((acc.1 ++ [⟨"op." ++ op_name, "PASS", pyRepr opv⟩])
          ++ [⟨"op." ++ op_name ++ ".error_message", st2, det2⟩])
         ++ [⟨"op." ++ op_name ++ "." ++ sfx3, st3, det3⟩])
        ++ [⟨"op." ++ op_name ++ ".time_selector" ++ "." ++ sfx4, st4, det4⟩])
      ("op." ++ op_name ++ ".time_selector")
      (safe_attr w
        ((acc.1 ++ [⟨"op." ++ op_name, "PASS", pyRepr opv⟩])
          ++ [⟨"op." ++ op_name ++ ".error_message", st2, det2⟩])
        ("op." ++ op_name) opv "time_selector" []).2
      "allowed_time_references" []
    refine ⟨[⟨"op." ++ op_name, "PASS", pyRepr opv⟩,
      ⟨"op." ++ op_name ++ ".error_message", st2, det2⟩,
      ⟨"op." ++ op_name ++ "." ++ sfx3, st3, det3⟩,
      ⟨"op." ++ op_name ++ ".time_selector" ++ "." ++ sfx4, st4, det4⟩,
      ⟨"op." ++ op_name ++ ".time_selector" ++ "." ++ sfx5, st5, det5⟩], ?_, ?_⟩
    · intro r hr
      simp only [List.mem_cons, List.mem_nil_iff, or_false] at hr
      rcases hr with rfl | rfl | rfl | rfl | rfl
      · exact startsWith_op op_name
      · exact pyStartsWith_append _ _ _ (startsWith_op op_name)
      · exact pyStartsWith_append _ _ _ (pyStartsWith_append _ _ _ (startsWith_op op_name))
      · exact pyStartsWith_append _ _ _ (pyStartsWith_append _ _ _
          (pyStartsWith_append _ _ _ (startsWith_op op_name)))
      · exact pyStartsWith_append _ _ _ (pyStartsWith_append _ _ _
          (pyStartsWith_append _ _ _ (startsWith_op op_name)))
    · simp only [probe_op_entry, hget, safe_read_ok, if_neg hne, h2, if_neg hts, h3, h4, h5]
      cases mk with
      | false => simp [List.append_assoc]
      | true =>
          cases w.makeNodesOf opv with
          | error ex => simp [List.append_assoc]
          | ok nodes =>
              cases w.clearNodesRun acc.2 with
              | ok removed => simp [List.append_assoc]
              | error ex => simp [List.append_assoc]

theorem classify_crash (op_name msg : String) (h : containsCrashMarker msg = true) :
    classify_make_nodes_failure op_name msg
      = ⟨"op." ++ op_name ++ ".make_nodes", "FAIL_CRASH", msg⟩ := by
  simp [classify_make_nodes_failure, h]

theorem classify_expected (op_name msg : String)
    (h1 : containsCrashMarker msg = false)
    (h2 : is_expected_operation_error msg = true) :
    classify_make_nodes_failure op_name msg
      = ⟨"op." ++ op_name ++ ".make_nodes", "EXPECTED_FAIL", msg⟩ := by
  simp [classify_make_nodes_failure, h1, h2]

/-- Evaluates `probe_op_entry` when `make_nodes` raises: the caught message is
classified and appended last; the cleanup counter does not move. -/
theorem probe_op_entry_make_error (w : World) (planner opv : PyVal)
    (acc : List CheckResult × Nat) (op_name msg : String)
    (hget : w.getattrOf planner op_name = Except.ok opv) (hne : opv ≠ PyVal.none)
    (hmk : w.makeNodesOf opv = Except.error msg) :
    ∃ mid, (∀ r ∈ mid, pyStartsWith r.name "op." = true) ∧
      probe_op_entry w planner true acc op_name
        = (acc.1 ++ mid ++ [classify_make_nodes_failure op_name msg], acc.2) := by
  obtain ⟨mid, hn, heq⟩ := probe_op_entry_ok_eq w planner opv acc op_name true hget hne
  refine ⟨mid, hn, ?_⟩
  rw [heq, hmk]
  rfl

/-- Evaluates `probe_op_entry` when `make_nodes` succeeds and cleanup succeeds:
the `PASS` record and the cleanup record are appended, and the cleanup
counter advances. -/
theorem probe_op_entry_make_ok (w : World) (planner opv : PyVal)
    (acc : List CheckResult × Nat) (op_name : String) (nodes : List PyVal)
    (removed : Nat)
    (hget : w.getattrOf planner op_name = Except.ok opv) (hne : opv ≠ PyVal.none)
    (hmk : w.makeNodesOf opv = Except.ok nodes)
    (hclr : w.clearNodesRun acc.2 = Except.ok removed) :
    ∃ mid, (∀ r ∈ mid, pyStartsWith r.name "op." = true) ∧
      probe_op_entry w planner true acc op_name
        = (acc.1 ++ mid ++
            [⟨"op." ++ op_name ++ ".make_nodes", "PASS",
               "nodes=" ++ toString nodes.length⟩,
             ⟨"space_center.clear_nodes", "PASS",
               "removed=" ++ toString removed⟩], acc.2 + 1) := by
  obtain ⟨mid, hn, heq⟩ := probe_op_entry_ok_eq w planner opv acc op_name true hget hne
  refine ⟨mid, hn, ?_⟩
  rw [heq, hmk, hclr]
  rfl

/-- The loop body `probe_op_entry` only ever appends to the ledger. -/
theorem probe_op_entry_extends (w : World) (planner : PyVal) (mk : Bool)
    (acc : List CheckResult × Nat) (op_name : String) :
    ∃ d, (probe_op_entry w planner mk acc op_name).1 = acc.1 ++ d := by
  rcases hget : w.getattrOf planner op_name with e | v
  · exact ⟨[⟨"op." ++ op_name,
      if containsCrashMarker e then "FAIL_CRASH" else "FAIL", e⟩],
      by simp [probe_op_entry, hget, safe_read]⟩
  · by_cases hv : v = PyVal.none
    · subst hv
      exact ⟨[⟨"op." ++ op_name, "PASS", "None"⟩],
        by simp [probe_op_entry, hget, safe_read, pyRepr]⟩
    · obtain ⟨mid, _, heq⟩ := probe_op_entry_ok_eq w planner v acc op_name mk hget hv
      rw [heq]
      cases mk with
      | false => exact ⟨mid, by simp⟩
      | true =>
          rcases hmk : w.makeNodesOf v with ex | nodes
          · exact ⟨mid ++ [classify_make_nodes_failure op_name ex],
              by simp [List.append_assoc]⟩
          · rcases hclr : w.clearNodesRun acc.2 with ex | removed
            · exact ⟨mid ++
                [⟨"op." ++ op_name ++ ".make_nodes", "PASS",
                   "nodes=" ++ toString nodes.length⟩,
                 classify_make_nodes_failure op_name ex],
                by simp [List.append_assoc]⟩
            · exact ⟨mid ++
                [⟨"op." ++ op_name ++ ".make_nodes", "PASS",
                   "nodes=" ++ toString nodes.length⟩,
                 ⟨"space_center.clear_nodes", "PASS",
                   "removed=" ++ toString removed⟩],
                by simp [List.append_assoc]⟩

/-- C1.  For every failure message carrying a crash marker, the
classification is `FAIL_CRASH` — no hypothesis about expected-operation
markers appears, so this holds whether or not one also occurs — both at
`safe_read` call sites (first conjunct) and at the node-generation call
site inside the operation walk (second conjunct), where the crash check
runs before the expected-operation check. -/
theorem crash_marker_precedence :
    (∀ (results : List CheckResult) (name msg : String),
        containsCrashMarker msg = true →
        safe_read results name (.error msg)
          = (results ++ [⟨name, "FAIL_CRASH", msg⟩], PyVal.none)) ∧
    (∀ (w : World) (planner opv : PyVal) (acc : List CheckResult × Nat)
        (op_name msg : String),
        w.getattrOf planner op_name = Except.ok opv → opv ≠ PyVal.none →
        w.makeNodesOf opv = Except.error msg →
        containsCrashMarker msg = true →
        (probe_op_entry w planner true acc op_name).1.getLast?
          = some ⟨"op." ++ op_name ++ ".make_nodes", "FAIL_CRASH", msg⟩) := by
  constructor
  · intro results name msg h
    rw [safe_read_error]
    simp [h]
  · intro w planner opv acc op_name msg hget hne hmk hcrash
    obtain ⟨mid, _, heq⟩ :=
      probe_op_entry_make_error w planner opv acc op_name msg hget hne hmk
    rw [heq]
    simp [classify_crash _ _ hcrash, List.getLast?_concat]

/-- C1 witness: a message containing both a crash marker and an
expected-operation marker ("target") is classified `FAIL_CRASH` at both
call sites. -/
theorem crash_marker_precedence_witness :
    safe_read [] "module.smart_ass" (.error "TargetInvocationException: no target")
      = ([⟨"module.smart_ass", "FAIL_CRASH", "TargetInvocationException: no target"⟩],
         PyVal.none) ∧
    (probe_op_entry wCrash (.obj 0) true ([], 0) "operation_apoapsis").1.getLast?
      = some ⟨"op.operation_apoapsis.make_nodes", "FAIL_CRASH",
          "TargetInvocationException: no target"⟩ :=
  ⟨(crash_marker_precedence).1 [] "module.smart_ass" _ (by decide),
   (crash_marker_precedence).2 wCrash (.obj 0) (.obj 1) ([], 0) "operation_apoapsis"
     "TargetInvocationException: no target" rfl (by decide) rfl (by decide)⟩

/-- C3.  A failure message with no crash marker but with an
expected-operation marker (case-insensitive) is classified
`EXPECTED_FAIL` at the node-generation call site (first conjunct) but
plain `FAIL` at `safe_read` call sites, whose two-tier classifier never
consults the expected-operation vocabulary (second conjunct). -/
theorem expected_marker_two_tier :
    (∀ (w : World) (planner opv : PyVal) (acc : List CheckResult × Nat)
        (op_name msg : String),
        w.getattrOf planner op_name = Except.ok opv → opv ≠ PyVal.none →
        w.makeNodesOf opv = Except.error msg →
        containsCrashMarker msg = false →
        is_expected_operation_error msg = true →
        (probe_op_entry w planner true acc op_name).1.getLast?
          = some ⟨"op." ++ op_name ++ ".make_nodes", "EXPECTED_FAIL", msg⟩) ∧
    (∀ (results : List CheckResult) (name msg : String),
        containsCrashMarker msg = false →
        is_expected_operation_error msg = true →
        safe_read results name (.error msg)
          = (results ++ [⟨name, "FAIL", msg⟩], PyVal.none)) := by
  constructor
  · intro w planner opv acc op_name msg hget hne hmk hnc hexp
    obtain ⟨mid, _, heq⟩ :=
      probe_op_entry_make_error w planner opv acc op_name msg hget hne hmk
    rw [heq]
    simp [classify_expected _ _ hnc hexp, List.getLast?_concat]
  · intro results name msg hnc _
    rw [safe_read_error]
    simp [hnc]

/-- C3 witness: the precondition message "No transfer window currently
available" (matches the `"no transfer"` marker case-insensitively, no
crash marker) yields `EXPECTED_FAIL` at the node-generation site and
`FAIL` through `safe_read`. -/
theorem expected_marker_two_tier_witness :
    (probe_op_entry wExpected (.obj 0) true ([], 0) "operation_transfer").1.getLast?
      = some ⟨"op.operation_transfer.make_nodes", "EXPECTED_FAIL",
          "No transfer window currently available"⟩ ∧
    safe_read [] "op.operation_transfer.error_message"
        (.error "No transfer window currently available")
      = ([⟨"op.operation_transfer.error_message", "FAIL",
           "No transfer window currently available"⟩], PyVal.none) :=
  ⟨(expected_marker_two_tier).1 wExpected (.obj 0) (.obj 1) ([], 0)
     "operation_transfer" "No transfer window currently available"
     rfl (by decide) rfl (by decide) (by decide),
   (expected_marker_two_tier).2 [] "op.operation_transfer.error_message"
     "No transfer window currently available" (by decide) (by decide)⟩

/-- C7.  At the node-generation site, an expected-operation failure is
recorded as `EXPECTED_FAIL` and cleanup is not attempted: the appended
block contains no `space_center.clear_nodes` record and the cleanup
counter does not move (first conjunct).  Cleanup runs only after a
successful `make_nodes`, and is then itself recorded as one
`CheckResult` whose detail carries the count of removed items (second
conjunct). -/
theorem make_nodes_cleanup_policy :
    (∀ (w : World) (planner opv : PyVal) (acc : List CheckResult × Nat)
        (op_name msg : String),
        w.getattrOf planner op_name = Except.ok opv → opv ≠ PyVal.none →
        w.makeNodesOf opv = Except.error msg →
        containsCrashMarker msg = false →
        is_expected_operation_error msg = true →
        ∃ mid, (∀ r ∈ mid, r.name ≠ "space_center.clear_nodes") ∧
          probe_op_entry w planner true acc op_name
            = (acc.1 ++ mid ++
                [⟨"op." ++ op_name ++ ".make_nodes", "EXPECTED_FAIL", msg⟩],
               acc.2)) ∧
    (∀ (w : World) (planner opv : PyVal) (acc : List CheckResult × Nat)
        (op_name : String) (nodes : List PyVal) (removed : Nat),
        w.getattrOf planner op_name = Except.ok opv → opv ≠ PyVal.none →
        w.makeNodesOf opv = Except.ok nodes →
        w.clearNodesRun acc.2 = Except.ok removed →
        ∃ mid, probe_op_entry w planner true acc op_name
            = (acc.1 ++ mid ++
                [⟨"op." ++ op_name ++ ".make_nodes", "PASS",
                   "nodes=" ++ toString nodes.length⟩,
                 ⟨"space_center.clear_nodes", "PASS",
                   "removed=" ++ toString removed⟩],
               acc.2 + 1)) := by
  constructor
  · intro w planner opv acc op_name msg hget hne hmk hnc hexp
    obtain ⟨mid, hnames, heq⟩ :=
      probe_op_entry_make_error w planner opv acc op_name msg hget hne hmk
    refine ⟨mid, fun r hr => name_op_ne_clear r (hnames r hr), ?_⟩
    rw [heq, classify_expected _ _ hnc hexp]
  · intro w planner opv acc op_name nodes removed hget hne hmk hclr
    obtain ⟨mid, _, heq⟩ :=
      probe_op_entry_make_ok w planner opv acc op_name nodes removed hget hne hmk hclr
    exact ⟨mid, heq⟩

/-- C7 witness: the two cleanup policies evaluated in concrete worlds —
an expected failure with untouched counter, and a successful generation
of two nodes followed by a recorded cleanup of two items. -/
theorem make_nodes_cleanup_policy_witness :
    (∃ mid, (∀ r ∈ mid, r.name ≠ "space_center.clear_nodes") ∧
      probe_op_entry wExpected (.obj 0) true ([], 0) "operation_transfer"
        = ([] ++ mid ++
            [⟨"op.operation_transfer.make_nodes", "EXPECTED_FAIL",
               "No transfer window currently available"⟩], 0)) ∧
    (∃ mid, probe_op_entry wNodes (.obj 0) true ([], 0) "operation_apoapsis"
        = ([] ++ mid ++
            [⟨"op.operation_apoapsis.make_nodes", "PASS", "nodes=2"⟩,
             ⟨"space_center.clear_nodes", "PASS", "removed=2"⟩], 1)) :=
  ⟨(make_nodes_cleanup_policy).1 wExpected (.obj 0) (.obj 1) ([], 0)
     "operation_transfer" "No transfer window currently available"
     rfl (by decide) rfl (by decide) (by decide),
   (make_nodes_cleanup_policy).2 wNodes (.obj 0) (.obj 1) ([], 0)
     "operation_apoapsis" [.obj 5, .obj 6] 2 rfl (by decide) rfl rfl⟩

/-- C4.  The Safe Invoker contract: on success exactly one
`CheckResult(name, PASS, repr(value))` is appended and the value is
returned; on an exception exactly one `CheckResult(name, FAIL_CRASH or
FAIL, message)` is appended and the `None` sentinel is returned; in
every case exactly one ledger append occurs.  (The embedded `safe_read`
is a total function: nothing propagates past its boundary.) -/
theorem safe_read_contract (results : List CheckResult) (name : String)
    (fn : Except String PyVal) :
    (∀ v, fn = .ok v →
      safe_read results name fn = (results ++ [⟨name, "PASS", pyRepr v⟩], v)) ∧
    (∀ msg, fn = .error msg →
      ∃ st, (st = "FAIL_CRASH" ∨ st = "FAIL") ∧
        safe_read results name fn = (results ++ [⟨name, st, msg⟩], PyVal.none)) ∧
    (safe_read results name fn).1.length = results.length + 1 := by
  refine ⟨?_, ?_, ?_⟩
  · rintro v rfl; rfl
  · rintro msg rfl
    refine ⟨if containsCrashMarker msg then "FAIL_CRASH" else "FAIL", ?_, rfl⟩
    by_cases h : containsCrashMarker msg = true
    · exact Or.inl (if_pos h)
    · exact Or.inr (if_neg h)
  · obtain ⟨st, det, h⟩ := safe_read_fst_shape results name fn
    simp [h]

/-- C4 witness: the contract evaluated on a concrete successful call. -/
theorem safe_read_contract_witness :
    safe_read [] "krpc.version" (.ok (.str "0.5.4"))
      = ([⟨"krpc.version", "PASS", "'0.5.4'"⟩], .str "0.5.4") :=
  (safe_read_contract [] "krpc.version" (.ok (.str "0.5.4"))).1 (.str "0.5.4") rfl

/-- C10.  A successful read of the value `None` appends a `PASS` result
yet returns `PyVal.none`, the very value `safe_read` returns on failure,
so callers treat the probed object exactly as if the fetch had failed:
`probe_basic_service` skips the `api_ready` probe when `conn.mech_jeb`
reads back `None`, `probe_modules` skips all member probes for a module
that reads back `None`, and `probe_operations` probes nothing when the
planner reads back `None` — while the ledger records `PASS` for each. -/
theorem safe_read_none_indistinguishable :
    (∀ results name, safe_read results name (.ok PyVal.none)
        = (results ++ [⟨name, "PASS", "None"⟩], PyVal.none)) ∧
    (∀ results name results' name' msg,
        (safe_read results name (.ok PyVal.none)).2
          = (safe_read results' name' (.error msg)).2) ∧
    (∀ (w : World) (mj : PyVal) (results : List CheckResult) (mn : String)
        (props : List String), w.getattrOf mj mn = .ok PyVal.none →
        probe_module_entry w mj results (mn, props)
          = results ++ [⟨"module." ++ mn, "PASS", "None"⟩]) ∧
    (∀ (w : World) (mj : PyVal) (results : List CheckResult) (mk : Bool),
        w.getattrOf mj "maneuver_planner" = .ok PyVal.none →
        probe_operations w mj results mk
          = results ++ [⟨"maneuver_planner", "PASS", "None"⟩]) ∧
    (∀ (w : World) (results : List CheckResult), w.mechJeb = .ok PyVal.none →
        ∃ r1, probe_basic_service w results
          = (results ++ [r1, ⟨"service.mech_jeb", "PASS", "None"⟩], PyVal.none)) := by
  refine ⟨fun results name => rfl, fun _ _ _ _ _ => rfl, ?_, ?_, ?_⟩
  · intro w mj results mn props h
    simp [probe_module_entry, h, safe_read, pyRepr]
  · intro w mj results mk h
    simp [probe_operations, h, safe_read, pyRepr]
  · intro w results h
    rcases hv : w.krpcVersion with e | v
    · refine ⟨⟨"krpc.version",
        if containsCrashMarker e then "FAIL_CRASH" else "FAIL", e⟩, ?_⟩
      simp [probe_basic_service, h, hv, safe_read, pyRepr]
    · refine ⟨⟨"krpc.version", "PASS", pyRepr v⟩, ?_⟩
      simp [probe_basic_service, h, hv, safe_read, pyRepr]

/-- The fold of member probes grows the ledger by one result per
property probed. -/
theorem foldl_safe_attr_length (w : World) (owner : String) (module : PyVal) :
    ∀ (props : List String) (rs : List CheckResult),
      (props.foldl (fun rs prop => (safe_attr w rs owner module prop).1) rs).length
        = rs.length + props.length := by
  intro props
  induction props with
  | nil => intro rs; simp
  | cons p t ih =>
      intro rs
      rw [List.foldl_cons, ih]
      obtain ⟨sfx, st, det, hs⟩ := safe_attr_fst_shape w rs owner module p []
      rw [hs]
      simp [List.length_append]
      omega

/-- C9.  In the module/property walk, when the object fetch comes back
as the absent sentinel, exactly one `CheckResult` is recorded for the
entry and zero member probes are attempted; when the fetch yields a
present object, the entry contributes its fetch result plus exactly one
result per listed member probe. -/
theorem module_walk_skips_absent (w : World) (mj : PyVal)
    (results : List CheckResult) (mn : String) (props : List String) :
    ((safe_read results ("module." ++ mn) (w.getattrOf mj mn)).2 = PyVal.none →
      ∃ r, probe_module_entry w mj results (mn, props) = results ++ [r]) ∧
    ((safe_read results ("module." ++ mn) (w.getattrOf mj mn)).2 ≠ PyVal.none →
      (probe_module_entry w mj results (mn, props)).length
        = results.length + 1 + props.length) := by
  obtain ⟨st, det, h1⟩ := safe_read_fst_shape results ("module." ++ mn) (w.getattrOf mj mn)
  constructor
  · intro h
    refine ⟨⟨"module." ++ mn, st, det⟩, ?_⟩
    simp only [probe_module_entry, if_pos h]
    exact h1
  · intro h
    simp only [probe_module_entry, if_neg h]
    rw [foldl_safe_attr_length, h1]
    simp [List.length_append]

/-- C9 witness: with a raising attribute read the entry records exactly
one result and no member probes; with a present module object the entry
records the fetch plus one result per member. -/
theorem module_walk_skips_absent_witness :
    (∃ r, probe_module_entry wRaising (.obj 0) [] ("airplane_autopilot", ["enabled"])
        = [] ++ [r]) ∧
    (probe_module_entry wBase (.obj 0) [] ("docking_autopilot", ["enabled", "speed_limit"])).length
        = ([] : List CheckResult).length + 1 + 2 :=
  ⟨(module_walk_skips_absent wRaising (.obj 0) [] "airplane_autopilot" ["enabled"]).1
     (by decide),
   (module_walk_skips_absent wBase (.obj 0) [] "docking_autopilot"
     ["enabled", "speed_limit"]).2 (by decide)⟩

/-- C8.  The Capability Prober: the probed name is the first of
`canonical :: aliases` present in the exposed member set (first-match
characterization included), and the recorded identifier uses the matched
name; if none is exposed, one `SKIP` result under the canonical name is
appended and the sentinel returned; if member-set introspection itself
raises, one `FAIL` result with a "cannot inspect attributes" detail is
appended instead. -/
theorem capability_prober_resolution (w : World) (results : List CheckResult)
    (owner : String) (obj : PyVal) (attr : String) (aliases : List String) :
    (∀ ex, w.dirOf obj = Except.error ex →
      safe_attr w results owner obj attr aliases
        = (results ++ [⟨owner ++ "." ++ attr, "FAIL",
            "cannot inspect attributes: " ++ ex⟩], PyVal.none)) ∧
    (∀ exposed, w.dirOf obj = Except.ok exposed →
      (∀ n, (attr :: aliases).find? (fun m => exposed.contains m) = some n →
        (exposed.contains n = true ∧
         ∃ pre suf, attr :: aliases = pre ++ n :: suf ∧
           ∀ m ∈ pre, exposed.contains m = false) ∧
        safe_attr w results owner obj attr aliases
          = safe_read results (owner ++ "." ++ n) (w.getattrOf obj n)) ∧
      ((attr :: aliases).find? (fun m => exposed.contains m) = none →
        safe_attr w results owner obj attr aliases
          = (results ++ [⟨owner ++ "." ++ attr, "SKIP",
              "attribute not exposed by this client/service build"⟩], PyVal.none))) := by
  constructor
  · intro ex h
    simp only [safe_attr, h]
  · intro exposed h
    constructor
    · intro n hf
      constructor
      · obtain ⟨hp, pre, suf, hsplit, hall⟩ := List.find?_eq_some.mp hf
        refine ⟨hp, pre, suf, hsplit, fun m hm => ?_⟩
        have := hall m hm
        simpa using this
      · simp only [safe_attr, h, hf]
    · intro hf
      simp only [safe_attr, h, hf]

/-- C8 witness: the canonical name `time_reference` is absent but the
alias `current_time_reference` is exposed, so the probe records against
the alias's name; and a broken member set yields the introspection
failure record. -/
theorem capability_prober_resolution_witness :
    safe_attr wAlias [] "ts" (.obj 3) "time_reference" ["current_time_reference"]
      = ([⟨"ts.current_time_reference", "PASS", "'orbit'"⟩], .str "orbit") ∧
    safe_attr wBrokenDir [] "ts" (.obj 3) "time_reference" ["current_time_reference"]
      = ([⟨"ts.time_reference", "FAIL", "cannot inspect attributes: ConnectionError"⟩],
         PyVal.none) := by
  constructor
  · have h := (((capability_prober_resolution wAlias [] "ts" (.obj 3)
      "time_reference" ["current_time_reference"]).2
      ["current_time_reference", "allowed_time_references"] rfl).1
      "current_time_reference" (by decide)).2
    rw [h]
    decide
  · exact (capability_prober_resolution wBrokenDir [] "ts" (.obj 3)
      "time_reference" ["current_time_reference"]).1 "ConnectionError" rfl

/-- One step of the ascent-compat fold appends exactly three results. -/
theorem ascent_step_extends (w : World) (A : PyVal) (rs : List CheckResult)
    (c : String × String × List PyVal) :
    ∃ d, (safe_read (safe_read (safe_read rs
        ("ascent.is_property_available(" ++ c.1 ++ ")")
        (w.callMethod A "is_property_available" [.str c.1])).1
        ("ascent.get_unavailable_reason(" ++ c.1 ++ ")")
        (w.callMethod A "get_unavailable_reason" [.str c.1])).1
        ("ascent." ++ c.2.1) (w.callMethod A c.2.1 c.2.2)).1 = rs ++ d := by
  obtain ⟨s1, d1, e1⟩ := safe_read_fst_shape rs
    ("ascent.is_property_available(" ++ c.1 ++ ")")
    (w.callMethod A "is_property_available" [.str c.1])
  rw [e1]
  obtain ⟨s2, d2, e2⟩ := safe_read_fst_shape
    (rs ++ [⟨"ascent.is_property_available(" ++ c.1 ++ ")", s1, d1⟩])
    ("ascent.get_unavailable_reason(" ++ c.1 ++ ")")
    (w.callMethod A "get_unavailable_reason" [.str c.1])
  rw [e2]
  obtain ⟨s3, d3, e3⟩ := safe_read_fst_shape
    ((rs ++ [⟨"ascent.is_property_available(" ++ c.1 ++ ")", s1, d1⟩])
      ++ [⟨"ascent.get_unavailable_reason(" ++ c.1 ++ ")", s2, d2⟩])
    ("ascent." ++ c.2.1) (w.callMethod A c.2.1 c.2.2)
  rw [e3]
  exact ⟨[⟨"ascent.is_property_available(" ++ c.1 ++ ")", s1, d1⟩,
    ⟨"ascent.get_unavailable_reason(" ++ c.1 ++ ")", s2, d2⟩,
    ⟨"ascent." ++ c.2.1, s3, d3⟩], by simp [List.append_assoc]⟩

theorem probe_basic_service_extends (w : World) (results : List CheckResult) :
    ∃ d, (probe_basic_service w results).1 = results ++ d := by
  obtain ⟨st1, det1, h1⟩ := safe_read_fst_shape results "krpc.version" w.krpcVersion
  obtain ⟨st2, det2, h2⟩ := safe_read_fst_shape
    (safe_read results "krpc.version" w.krpcVersion).1 "service.mech_jeb" w.mechJeb
  by_cases hmj : (safe_read (safe_read results "krpc.version" w.krpcVersion).1
      "service.mech_jeb" w.mechJeb).2 = PyVal.none
  · refine ⟨[⟨"krpc.version", st1, det1⟩, ⟨"service.mech_jeb", st2, det2⟩], ?_⟩
    simp only [probe_basic_service]
    rw [if_pos hmj, h2, h1]
    simp [List.append_assoc]
  · obtain ⟨st3, det3, h3⟩ := safe_read_fst_shape
      (safe_read (safe_read results "krpc.version" w.krpcVersion).1
        "service.mech_jeb" w.mechJeb).1 "mech_jeb.api_ready"
      (w.getattrOf (safe_read (safe_read results "krpc.version" w.krpcVersion).1
        "service.mech_jeb" w.mechJeb).2 "api_ready")
    by_cases hrd : (safe_read (safe_read (safe_read results "krpc.version" w.krpcVersion).1
        "service.mech_jeb" w.mechJeb).1 "mech_jeb.api_ready"
        (w.getattrOf (safe_read (safe_read results "krpc.version" w.krpcVersion).1
          "service.mech_jeb" w.mechJeb).2 "api_ready")).2 = PyVal.bool false
    · refine ⟨[⟨"krpc.version", st1, det1⟩, ⟨"service.mech_jeb", st2, det2⟩,
        ⟨"mech_jeb.api_ready", st3, det3⟩,
        ⟨"mech_jeb.api_ready", "FAIL", "API is not ready"⟩], ?_⟩
      simp only [probe_basic_service]
      rw [if_neg hmj, if_pos hrd, h3, h2, h1]
      simp [List.append_assoc]
    · refine ⟨[⟨"krpc.version", st1, det1⟩, ⟨"service.mech_jeb", st2, det2⟩,
        ⟨"mech_jeb.api_ready", st3, det3⟩], ?_⟩
      simp only [probe_basic_service]
      rw [if_neg hmj, if_neg hrd, h3, h2, h1]
      simp [List.append_assoc]

theorem probe_module_entry_extends (w : World) (mj : PyVal)
    (results : List CheckResult) (entry : String × List String) :
    ∃ d, probe_module_entry w mj results entry = results ++ d := by
  obtain ⟨st, det, h1⟩ := safe_read_fst_shape results ("module." ++ entry.1)
    (w.getattrOf mj entry.1)
  by_cases hm : (safe_read results ("module." ++ entry.1)
      (w.getattrOf mj entry.1)).2 = PyVal.none
  · refine ⟨[⟨"module." ++ entry.1, st, det⟩], ?_⟩
    simp only [probe_module_entry]
    rw [if_pos hm, h1]
  · simp only [probe_module_entry]
    rw [if_neg hm, h1]
    generalize (safe_read results ("module." ++ entry.1) (w.getattrOf mj entry.1)).2 = A
    obtain ⟨d2, h2⟩ := foldl_extends
      (fun rs prop => (safe_attr w rs entry.1 A prop).1)
      (fun rs prop => safe_attr_extends w rs entry.1 A prop [])
      entry.2 (results ++ [⟨"module." ++ entry.1, st, det⟩])
    rw [h2]
    exact ⟨[⟨"module." ++ entry.1, st, det⟩] ++ d2, by simp [List.append_assoc]⟩

theorem probe_modules_extends (w : World) (mj : PyVal)
    (results : List CheckResult) :
    ∃ d, probe_modules w mj results = results ++ d := by
  simp only [probe_modules]
  exact foldl_extends (probe_module_entry w mj)
    (fun rs e => probe_module_entry_extends w mj rs e) modulesCatalog results

theorem probe_ascent_compat_extends (w : World) (mj : PyVal)
    (results : List CheckResult) :
    ∃ d, probe_ascent_compat w mj results = results ++ d := by
  obtain ⟨st1, det1, h1⟩ := safe_read_fst_shape results "module.ascent_autopilot"
    (w.getattrOf mj "ascent_autopilot")
  by_cases ha : (safe_read results "module.ascent_autopilot"
      (w.getattrOf mj "ascent_autopilot")).2 = PyVal.none
  · refine ⟨[⟨"module.ascent_autopilot", st1, det1⟩], ?_⟩
    simp only [probe_ascent_compat]
    rw [if_pos ha, h1]
  · simp only [probe_ascent_compat]
    rw [if_neg ha, h1]
    generalize (safe_read results "module.ascent_autopilot"
      (w.getattrOf mj "ascent_autopilot")).2 = A
    obtain ⟨d2, h2⟩ := foldl_extends
      (fun rs c => (safe_read (safe_read (safe_read rs
          ("ascent.is_property_available(" ++ c.1 ++ ")")
          (w.callMethod A "is_property_available" [.str c.1])).1
          ("ascent.get_unavailable_reason(" ++ c.1 ++ ")")
          (w.callMethod A "get_unavailable_reason" [.str c.1])).1
          ("ascent." ++ c.2.1) (w.callMethod A c.2.1 c.2.2)).1)
      (fun rs c => ascent_step_extends w A rs c)
      ascentChecks (results ++ [⟨"module.ascent_autopilot", st1, det1⟩])
    rw [h2]
    exact ⟨[⟨"module.ascent_autopilot", st1, det1⟩] ++ d2, by simp [List.append_assoc]⟩

theorem probe_operations_extends (w : World) (mj : PyVal)
    (results : List CheckResult) (mk : Bool) :
    ∃ d, probe_operations w mj results mk = results ++ d := by
  obtain ⟨st, det, h1⟩ := safe_read_fst_shape results "maneuver_planner"
    (w.getattrOf mj "maneuver_planner")
  by_cases hp : (safe_read results "maneuver_planner"
      (w.getattrOf mj "maneuver_planner")).2 = PyVal.none
  · refine ⟨[⟨"maneuver_planner", st, det⟩], ?_⟩
    simp only [probe_operations]
    rw [if_pos hp, h1]
  · simp only [probe_operations]
    rw [if_neg hp, h1]
    generalize (safe_read results "maneuver_planner"
      (w.getattrOf mj "maneuver_planner")).2 = A
    obtain ⟨d2, h2⟩ := foldl_pair_extends (probe_op_entry w A mk)
      (fun acc b => probe_op_entry_extends w A mk acc b)
      operationsCatalog (results ++ [⟨"maneuver_planner", st, det⟩], 0)
    rw [h2]
    exact ⟨[⟨"maneuver_planner", st, det⟩] ++ d2, by simp [List.append_assoc]⟩

/-- Evaluates `probe_basic_service` when the service object is present but
`api_ready` reads back `False`: the one `api_ready` probe attempt yields
two ledger entries, the `PASS` from `safe_read` and a synthesized
`FAIL`. -/
theorem probe_basic_service_api_false (w : World) (results : List CheckResult)
    (mjv : PyVal) (hne : mjv ≠ PyVal.none) (hmj : w.mechJeb = Except.ok mjv)
    (hget : w.getattrOf mjv "api_ready" = Except.ok (.bool false)) :
    ∃ r1, (probe_basic_service w results).1
      = results ++ [r1, ⟨"service.mech_jeb", "PASS", pyRepr mjv⟩,
          ⟨"mech_jeb.api_ready", "PASS", "False"⟩,
          ⟨"mech_jeb.api_ready", "FAIL", "API is not ready"⟩] := by
  obtain ⟨st1, det1, h1⟩ := safe_read_fst_shape results "krpc.version" w.krpcVersion
  refine ⟨⟨"krpc.version", st1, det1⟩, ?_⟩
  simp only [probe_basic_service, hmj, hget, safe_read_ok]
  rw [if_neg hne]
  rw [h1]
  simp [pyRepr, List.append_assoc]

/-- C6 counterexample: in a world whose `api_ready` property reads back
`False`, the single `api_ready` probe attempt in `probe_basic_service`
appends two `CheckResult`s under the same name — the `PASS` recorded by
`safe_read` and a second, synthesized `FAIL` — refuting "every probe
attempt appends exactly one CheckResult". -/
theorem one_append_per_probe_counterexample :
    (probe_basic_service wApiNotReady []).1
      = [⟨"krpc.version", "PASS", "'0.5.4'"⟩,
         ⟨"service.mech_jeb", "PASS", "<remote object 0>"⟩,
         ⟨"mech_jeb.api_ready", "PASS", "False"⟩,
         ⟨"mech_jeb.api_ready", "FAIL", "API is not ready"⟩] ∧
    ((probe_basic_service wApiNotReady []).1.filter
        (fun r => r.name == "mech_jeb.api_ready")).length = 2 := by
  constructor
  · decide
  · decide

/-- C6 amended: the ledger is append-only throughout a run (no result is
mutated or removed), and every probe attempt appends exactly one
`CheckResult`, in probe order — with the single exception of the
`api_ready` read in `probe_basic_service`, which appends an additional
`FAIL` result under the same name whenever the value it reads back is
`False`. -/
theorem ledger_append_discipline :
    (∀ (results : List CheckResult) (name : String) (fn : Except String PyVal),
        ∃ r : CheckResult, (safe_read results name fn).1 = results ++ [r]) ∧
    (∀ (w : World) (results : List CheckResult) (owner : String) (obj : PyVal)
        (attr : String) (aliases : List String),
        ∃ r : CheckResult, (safe_attr w results owner obj attr aliases).1
          = results ++ [r]) ∧
    (∀ (w : World) (results : List CheckResult),
        ∃ d, (probe_basic_service w results).1 = results ++ d) ∧
    (∀ (w : World) (mj : PyVal) (results : List CheckResult),
        ∃ d, probe_modules w mj results = results ++ d) ∧
    (∀ (w : World) (mj : PyVal) (results : List CheckResult),
        ∃ d, probe_ascent_compat w mj results = results ++ d) ∧
    (∀ (w : World) (mj : PyVal) (results : List CheckResult) (mk : Bool),
        ∃ d, probe_operations w mj results mk = results ++ d) ∧
    (∀ (w : World) (results : List CheckResult) (mjv : PyVal),
        mjv ≠ PyVal.none → w.mechJeb = Except.ok mjv →
        w.getattrOf mjv "api_ready" = Except.ok (.bool false) →
        ∃ r1, (probe_basic_service w results).1
          = results ++ [r1, ⟨"service.mech_jeb", "PASS", pyRepr mjv⟩,
              ⟨"mech_jeb.api_ready", "PASS", "False"⟩,
              ⟨"mech_jeb.api_ready", "FAIL", "API is not ready"⟩]) := by
  refine ⟨?_, ?_, probe_basic_service_extends, probe_modules_extends,
    probe_ascent_compat_extends, probe_operations_extends,
    probe_basic_service_api_false⟩
  · intro results name fn
    obtain ⟨st, det, h⟩ := safe_read_fst_shape results name fn
    exact ⟨⟨name, st, det⟩, h⟩
  · intro w results owner obj attr aliases
    obtain ⟨sfx, st, det, h⟩ := safe_attr_fst_shape w results owner obj attr aliases
    exact ⟨⟨owner ++ "." ++ sfx, st, det⟩, h⟩

/-- C6 witness: the amended discipline applied in the world whose
`api_ready` reads back `False`, starting from a non-empty ledger. -/
theorem ledger_append_discipline_witness :
    ∃ r1, (probe_basic_service wApiNotReady [⟨"pre", "SKIP", ""⟩]).1
      = [⟨"pre", "SKIP", ""⟩]
          ++ [r1, ⟨"service.mech_jeb", "PASS", "<remote object 0>"⟩,
              ⟨"mech_jeb.api_ready", "PASS", "False"⟩,
              ⟨"mech_jeb.api_ready", "FAIL", "API is not ready"⟩] :=
  (ledger_append_discipline).2.2.2.2.2.2 wApiNotReady [⟨"pre", "SKIP", ""⟩]
    (.obj 0) (by decide) rfl rfl

/-- Exit code as computed by `summarize`. -/
theorem summarize_exit_eq (results : List CheckResult) :
    (summarize results).2
      = if (results.filter fun r => pyStartsWith r.status "FAIL").isEmpty
        then 0 else 1 := rfl

/-- C2.  The reporter returns exit code `0` iff the ledger contains no
`FAIL` and no `FAIL_CRASH` result (given that every status is from the
closed enumeration); appending an `EXPECTED_FAIL` or `SKIP` result never
changes the exit code. -/
theorem summarize_exit_code (results : List CheckResult)
    (h : ∀ r ∈ results, r.status ∈ validStatuses) :
    ((summarize results).2 = 0 ↔
      ∀ r ∈ results, r.status ≠ "FAIL" ∧ r.status ≠ "FAIL_CRASH") ∧
    (∀ name detail st, (st = "EXPECTED_FAIL" ∨ st = "SKIP") →
      (summarize (results ++ [⟨name, st, detail⟩])).2 = (summarize results).2) := by
  constructor
  · constructor
    · intro h0 r hr
      have hc : (results.filter fun r => pyStartsWith r.status "FAIL").isEmpty = true := by
        by_contra hc
        rw [summarize_exit_eq, if_neg hc] at h0
        exact one_ne_zero h0
      have hall := List.filter_eq_nil_iff.mp (List.isEmpty_iff.mp hc)
      have hnp := hall r hr
      constructor
      · intro he; rw [he] at hnp; exact hnp (by decide)
      · intro he; rw [he] at hnp; exact hnp (by decide)
    · intro hne
      rw [summarize_exit_eq]
      have hc : (results.filter fun r => pyStartsWith r.status "FAIL") = [] := by
        rw [List.filter_eq_nil_iff]
        intro r hr
        have hv := h r hr
        obtain ⟨h1, h2⟩ := hne r hr
        simp only [validStatuses, List.mem_cons, List.mem_nil_iff, or_false] at hv
        rcases hv with h5 | h5 | h5 | h5 | h5
        · rw [h5]; decide
        · exact absurd h5 h1
        · exact absurd h5 h2
        · rw [h5]; decide
        · rw [h5]; decide
      rw [hc]
      rfl
  · intro name detail st hst
    rw [summarize_exit_eq, summarize_exit_eq, List.filter_append]
    have hz : List.filter (fun r => pyStartsWith r.status "FAIL")
        [(⟨name, st, detail⟩ : CheckResult)] = [] := by
      rcases hst with rfl | rfl <;> rfl
    rw [hz, List.append_nil]

/-- C2 witness: a ledger with `PASS`, `EXPECTED_FAIL` and `SKIP` results
(and nothing else) exits `0`. -/
theorem summarize_exit_code_witness : (summarize c2demo).2 = 0 :=
  (summarize_exit_code c2demo (by decide)).1.mpr (by decide)

/-- C5 counterexample: when an unhandled failure escapes probing, the
exit code is indeed 3, but the itemized report line that `summarize`
would have printed for the already-collected result is absent from the
output (third conjunct shows that on the normal path the very same
ledger produces that line first). -/
theorem report_on_abort_counterexample :
    (main_dispatch (BodyOutcome.exn c5ledger "boom")).2 = 3 ∧
    "[PASS] krpc.version: '0.5.4'" ∉ (main_dispatch (BodyOutcome.exn c5ledger "boom")).1 ∧
    (main_dispatch (BodyOutcome.ok c5ledger)).1.head?
      = some "[PASS] krpc.version: '0.5.4'" := by
  refine ⟨rfl, ?_, rfl⟩
  decide

/-- C5 amended: when an unhandled failure escapes the probe boundaries,
the process exit code is 3, but the itemized report is not printed on
this path: the output is only the failure notice (the traceback goes to
stderr), for every ledger collected so far. -/
theorem report_on_abort_amended (results : List CheckResult) (msg : String) :
    main_dispatch (BodyOutcome.exn results msg)
      = (["[FAIL] unhandled exception during smoke test"], 3) := rfl

/-- C10 witness: in a world where every attribute reads back `None`, the
module walk for one entry records a single `PASS` and no member probe. -/
theorem safe_read_none_indistinguishable_witness :
    probe_module_entry wNoneVal (.obj 0) [] ("airplane_autopilot", ["enabled"])
      = [⟨"module.airplane_autopilot", "PASS", "None"⟩] :=
  (safe_read_none_indistinguishable).2.2.1 wNoneVal (.obj 0) []
    "airplane_autopilot" ["enabled"] rfl
